import Mathlib

/-!
Verification of the Activity Aggregation & Streak Engine of a study-tracking
backend (`sessions.py`, `subjects.py`, `ai.py`).

Calendar dates and instants are modelled as integers (days, respectively
seconds, in UTC); `time_spent` hours and focus levels are modelled as
rationals.  Each definition is a direct translation of the corresponding
Python function.
-/

/-! ## Streak computation (`sessions.py`, `get_streak`)

The endpoint groups the user's sessions by calendar date, sorts the distinct
dates descending and walks them with an index `i`, maintaining
`current_streak`, `longest_streak` and `temp_streak`.  The state triple is
`(current_streak, longest_streak, temp_streak)`.
-/

/-- Loop body of `get_streak` for an index `i ≥ 1` (the `elif i > 0` branch
followed by the end-of-iteration `longest_streak = max(longest_streak,
temp_streak)` update).  `prev` is `dates[i-1]`, `d` is `dates[i]`, and `i1`
records whether `i == 1`. -/
def stepRest (prev d : Int) (st : Nat × Nat × Nat) (i1 : Bool) : Nat × Nat × Nat :=
  if prev - d = 1 then
    (if i1 then st.2.2 + 1 else st.1, max st.2.1 (st.2.2 + 1), st.2.2 + 1)
  else
    (st.1, max (max st.2.1 st.2.2) 1, 1)

/-- The remaining iterations of the `get_streak` loop after index `0`:
`prev` is the previous date, `l` the still unprocessed dates, `st` the state
`(current_streak, longest_streak, temp_streak)`, `i1` whether the next
iteration has index `1`. -/
def loopAux (prev : Int) (l : List Int) (st : Nat × Nat × Nat) (i1 : Bool) :
    Nat × Nat × Nat :=
  match l with
  | [] => st
  | d :: ds => loopAux d ds (stepRest prev d st i1) false

/-- The full loop of `get_streak` over the distinct session dates sorted
descending, including the special `i == 0` iteration (which sets
`temp_streak = current_streak = 1` exactly when the most recent date is
`today` or `today - 1`), returning `(current_streak, longest_streak)`. -/
def streakOfDates (today : Int) (dates : List Int) : Nat × Nat :=
  match dates with
  | [] => (0, 0)
  | d :: ds =>
    let st0 : Nat × Nat × Nat :=
      if d = today ∨ d = today - 1 then (1, 1, 1) else (0, 0, 0)
    let r := loopAux d ds st0 true
    (r.1, r.2.1)

/-- `get_streak` from `sessions.py`: sessions are represented by their
calendar dates (one entry per session, duplicates allowed).  An empty history
returns `(0, 0)` immediately; otherwise the distinct dates are sorted
descending and walked. -/
def get_streak (sessionDates : List Int) (today : Int) : Nat × Nat :=
  if sessionDates = [] then (0, 0)
  else streakOfDates today (sessionDates.dedup.insertionSort (· ≥ ·))

/-! ## Analytics (`sessions.py`, `get_analytics`; `subjects.py`; `ai.py`)

Instants are seconds; `timedelta(days=days)` is `days * 86400` seconds.
`time_spent` (hours) and focus levels are rationals; an absent
`focus_level` is `none`.  Subjects are identified by a `Nat` key (the
subject name in the source).
-/

/-- A study-session record as consumed by the aggregation code
(`models.StudySession`): occurrence instant, hours spent, optional focus
level, owning subject. -/
structure StudySession where
  timestamp : Int
  time_spent : Rat
  focus_level : Option Rat
  subject_id : Nat
  deriving DecidableEq

/-- The time-window filter of `get_analytics`: `start_date = end_date -
timedelta(days=days)` and records are kept when `timestamp >= start_date`
and `timestamp <= end_date` (both ends inclusive). -/
def windowFilter (sessions : List StudySession) (now days : Int) : List StudySession :=
  sessions.filter fun s =>
    decide (now - days * 86400 ≤ s.timestamp) && decide (s.timestamp ≤ now)

/-- `avg_focus` of `get_analytics`: `0`, overwritten by the mean of the
non-`None` focus levels when the session list and that sublist are both
non-empty. -/
def analyticsAvgFocus (sessions : List StudySession) : Rat :=
  let focus_levels := sessions.filterMap fun s => s.focus_level
  if sessions = [] then 0
  else if focus_levels = [] then 0
  else focus_levels.sum / focus_levels.length

/-- Python `round` to an integer: round half to even. -/
def pyRoundInt (x : Rat) : Int :=
  let f := ⌊x⌋
  let r := x - (f : Rat)
  if r < 1 / 2 then f
  else if 1 / 2 < r then f + 1
  else if f % 2 = 0 then f else f + 1

/-- Python `round(x, n)`: round to `n` decimal places, half to even. -/
def pyRound (x : Rat) (n : Nat) : Rat :=
  (pyRoundInt (x * 10 ^ n) : Rat) / 10 ^ n

/-- The `summary` object of the `get_analytics` response. -/
structure AnalyticsSummary where
  total_time : Rat
  total_sessions : Nat
  average_focus_level : Rat
  average_time_per_session : Rat
  deriving DecidableEq

/-- `get_analytics` from `sessions.py` (summary part): filter the sessions
to the window, sum raw hours, count, average the present focus levels, and
round only when composing the response (`total_time` and
`average_time_per_session` to 2 decimals, `average_focus_level` to 1). -/
def get_analytics (sessions : List StudySession) (now days : Int) : AnalyticsSummary :=
  let filtered := windowFilter sessions now days
  let total_time := (filtered.map fun s => s.time_spent).sum
  let total_sessions := filtered.length
  let avg_focus := analyticsAvgFocus filtered
  { total_time := pyRound total_time 2
    total_sessions := total_sessions
    average_focus_level := pyRound avg_focus 1
    average_time_per_session :=
      if 0 < total_sessions then pyRound (total_time / (total_sessions : Rat)) 2 else 0 }

/-- One update of the `subject_data` dict of `get_analytics`: add the
session's hours and bump the session count under its subject key, keys in
first-seen order. -/
def bumpSubject (acc : List (Nat × Rat × Nat)) (k : Nat) (t : Rat) :
    List (Nat × Rat × Nat) :=
  match acc with
  | [] => [(k, t, 1)]
  | e :: rest =>
    if e.1 = k then (e.1, e.2.1 + t, e.2.2 + 1) :: rest
    else e :: bumpSubject rest k t

/-- The `subject_data` dict of `get_analytics` as an association list
`subject ↦ (total hours, session count)` in first-seen key order. -/
def subject_breakdown (records : List StudySession) : List (Nat × Rat × Nat) :=
  records.foldl (fun acc s => bumpSubject acc s.subject_id s.time_spent) []

/-- `avg_focus` of `get_subject_stats` in `subjects.py`: `0` for an empty
session list, otherwise `sum(session.focus_level or 0) / len(sessions)` —
an absent focus level contributes `0` to the numerator while the record
still counts in the denominator. -/
def get_subject_stats_avg_focus (sessions : List StudySession) : Rat :=
  if sessions = [] then 0
  else (sessions.map fun s => s.focus_level.getD 0).sum / sessions.length

/-- Average focus as the spec words it (§4.3): the arithmetic mean of the
present focus levels only, absent ones excluded from numerator and
denominator, `0` when none is present.  Stated for comparison with the two
source computations. -/
def meanPresentFocus (sessions : List StudySession) : Rat :=
  let present := sessions.filterMap fun s => s.focus_level
  if present = [] then 0 else present.sum / present.length

/-- Python truthiness test `if session.focus_level:` used by
`get_study_data_for_ai`: keeps a focus level that is present and nonzero. -/
def truthyFocus (fo : Option Rat) : Option Rat :=
  match fo with
  | none => none
  | some v => if v = 0 then none else some v

/-- One update of the `subject_sessions` dict of `get_study_data_for_ai`:
add hours, bump the count and append the (truthy) focus level under the
session's subject key, keys in first-seen order. -/
def bumpAI (acc : List (Nat × Rat × Nat × List Rat)) (k : Nat) (t : Rat)
    (fo : Option Rat) : List (Nat × Rat × Nat × List Rat) :=
  match acc with
  | [] => [(k, t, 1, (truthyFocus fo).toList)]
  | e :: rest =>
    if e.1 = k then
      (e.1, e.2.1 + t, e.2.2.1 + 1, e.2.2.2 ++ (truthyFocus fo).toList) :: rest
    else e :: bumpAI rest k t fo

/-- The per-subject groups built by `get_study_data_for_ai`:
`subject ↦ (total_time, sessions, focus_levels)` in first-seen order. -/
def aiSubjectGroups (records : List StudySession) : List (Nat × Rat × Nat × List Rat) :=
  records.foldl (fun acc s => bumpAI acc s.subject_id s.time_spent s.focus_level) []

/-- Python `max(items, key=total_time)` over a non-empty list `x :: xs`:
scan left to right, replace the best only on a strictly larger key, so ties
keep the earliest group. -/
def pyMaxByTime (x : Nat × Rat) (xs : List (Nat × Rat)) : Nat × Rat :=
  xs.foldl (fun best g => if best.2 < g.2 then g else best) x

/-- Python `min(items, key=total_time)` over a non-empty list `x :: xs`:
replace the best only on a strictly smaller key, ties keep the earliest. -/
def pyMinByTime (x : Nat × Rat) (xs : List (Nat × Rat)) : Nat × Rat :=
  xs.foldl (fun best g => if g.2 < best.2 then g else best) x

/-- The most and least studied selection of `get_weekly_insights`: on an empty
group list both slots are the placeholder `(None, 0)`, otherwise `max` and
`min` of the groups by `total_time`.  Each slot is `(name, time)` with the
name optional. -/
def weeklyExtremes (groups : List (Nat × Rat)) :
    (Option Nat × Rat) × (Option Nat × Rat) :=
  match groups with
  | [] => ((none, 0), (none, 0))
  | x :: xs =>
    let most := pyMaxByTime x xs
    let least := pyMinByTime x xs
    ((some most.1, most.2), (some least.1, least.2))

/-- The numeric part of the `get_weekly_insights` response. -/
structure WeeklyInsights where
  total_study_time : Rat
  total_sessions : Nat
  average_focus_level : Rat
  most_studied_name : Option Nat
  most_studied_time : Rat
  least_studied_name : Option Nat
  least_studied_time : Rat
  subjects_studied : Nat
  deriving DecidableEq

/-- `get_weekly_insights` from `ai.py`: aggregate the last-7-days sessions
by subject, total the raw per-group hours and counts, average all collected
focus levels, and pick the most and least studied subjects; `total_study_time` is
rounded to 2 decimals and `average_focus_level` to 1 at the response, while
the extremum times are passed through unrounded. -/
def get_weekly_insights (sessions : List StudySession) (now : Int) : WeeklyInsights :=
  let groups := aiSubjectGroups (windowFilter sessions now 7)
  let total_time := (groups.map fun g => g.2.1).sum
  let total_sessions := (groups.map fun g => g.2.2.1).sum
  let ext := weeklyExtremes (groups.map fun g => (g.1, g.2.1))
  let all_focus := groups.foldl (fun acc g => acc ++ g.2.2.2) ([] : List Rat)
  let avg_focus := if all_focus = [] then 0 else all_focus.sum / all_focus.length
  { total_study_time := pyRound total_time 2
    total_sessions := total_sessions
    average_focus_level := pyRound avg_focus 1
    most_studied_name := ext.1.1
    most_studied_time := ext.1.2
    least_studied_name := ext.2.1
    least_studied_time := ext.2.2
    subjects_studied := groups.length }

/-! ## Streak lemmas and claims -/

/-- After the `i == 1` iteration the loop never changes `current_streak`. -/
theorem stepRest_fst_false (prev d : Int) (st : Nat × Nat × Nat) :
    (stepRest prev d st false).1 = st.1 := by
  simp only [stepRest]
  split <;> rfl

/-- `current_streak` is left untouched by every iteration with `i ≥ 2`. -/
theorem loopAux_fst_false (l : List Int) :
    ∀ (prev : Int) (st : Nat × Nat × Nat), (loopAux prev l st false).1 = st.1 := by
  induction l with
  | nil => intro prev st; rfl
  | cons d ds ih =>
    intro prev st
    simp only [loopAux]
    rw [ih, stepRest_fst_false]

/-- Each loop iteration can only increase `longest_streak`. -/
theorem stepRest_snd_le (prev d : Int) (st : Nat × Nat × Nat) (i1 : Bool) :
    st.2.1 ≤ (stepRest prev d st i1).2.1 := by
  simp only [stepRest]
  split
  · exact le_max_left _ _
  · exact le_trans (le_max_left _ _) (le_max_left _ _)

/-- `longest_streak` never decreases over the rest of the loop. -/
theorem loopAux_snd_le (l : List Int) :
    ∀ (prev : Int) (st : Nat × Nat × Nat) (i1 : Bool),
      st.2.1 ≤ (loopAux prev l st i1).2.1 := by
  induction l with
  | nil => intro prev st i1; exact le_refl _
  | cons d ds ih =>
    intro prev st i1
    simp only [loopAux]
    exact le_trans (stepRest_snd_le prev d st i1) (ih d (stepRest prev d st i1) false)

/-- Both invariants of the remaining loop at once, given they hold of the
state after the `i == 1` iteration. -/
theorem loopAux_bounds (e : Int) (es : List Int) (st : Nat × Nat × Nat)
    (h1 : st.1 ≤ 2) (h2 : st.1 ≤ st.2.1) :
    (loopAux e es st false).1 ≤ 2 ∧
    (loopAux e es st false).1 ≤ (loopAux e es st false).2.1 := by
  constructor
  · rw [loopAux_fst_false]; exact h1
  · rw [loopAux_fst_false]; exact le_trans h2 (loopAux_snd_le es e st false)

/-- The state after the `i == 1` iteration: `current_streak` is at most `2`
and at most `longest_streak`, whatever the two leading dates are. -/
theorem stepRest_first_bounds (d e : Int) (st0 : Nat × Nat × Nat)
    (h : st0 = (1, 1, 1) ∨ st0 = (0, 0, 0)) :
    (stepRest d e st0 true).1 ≤ 2 ∧
    (stepRest d e st0 true).1 ≤ (stepRest d e st0 true).2.1 := by
  rcases h with h | h <;> subst h <;> simp only [stepRest] <;> split <;>
    exact ⟨by decide, by decide⟩

/-- Claim C1: the spec requires `current = longest = N` for a history whose
distinct dates are the `N` consecutive days ending today; on the concrete
history `{today, today - 1, today - 2}` (with `today = 0`) the code instead
returns `current_streak = 2` (with `longest_streak = 3`). -/
theorem get_streak_three_days_ending_today :
    get_streak [0, -1, -2] 0 = (2, 3) := by decide

/-- Claim C2: for sessions exactly on `today - 5`, `today - 4`, `today - 3`
(with `today = 0`) the code returns `current_streak = 1` and
`longest_streak = 2`, not the `(0, 3)` the spec requires. -/
theorem get_streak_historical_run_only :
    get_streak [-5, -4, -3] 0 = (1, 2) := by decide

/-- Claim C3: the base and multi-run spec cases hold for every `today`: an
empty history gives `(0, 0)`, a session only today gives `(1, 1)`, and
sessions on `today`, `today - 1`, `today - 5`, `today - 6`, `today - 7` give
`current_streak = 2`, `longest_streak = 3` — also when some of those dates
carry several sessions, which count once. -/
theorem get_streak_spec_cases (t : Int) :
    get_streak [] t = (0, 0) ∧
    get_streak [t] t = (1, 1) ∧
    get_streak [t, t - 1, t - 5, t - 6, t - 7] t = (2, 3) ∧
    get_streak [t, t, t - 1, t - 5, t - 6, t - 7, t - 7] t = (2, 3) := by
  have hsorted : List.Sorted (· ≥ ·) [t, t - 1, t - 5, t - 6, t - 7] := by
    simp [List.sorted_cons]
    omega
  have hnd : ([t, t - 1, t - 5, t - 6, t - 7] : List Int).Nodup := by
    simp [List.nodup_cons]
    omega
  have h1 : stepRest t (t - 1) (1, 1, 1) true = (2, 2, 2) := by
    simp only [stepRest]
    rw [if_pos (show t - (t - 1) = 1 by omega)]
    decide
  have h2 : stepRest (t - 1) (t - 5) (2, 2, 2) false = (2, 2, 1) := by
    simp only [stepRest]
    rw [if_neg (show ¬t - 1 - (t - 5) = 1 by omega)]
    decide
  have h3 : stepRest (t - 5) (t - 6) (2, 2, 1) false = (2, 2, 2) := by
    simp only [stepRest]
    rw [if_pos (show t - 5 - (t - 6) = 1 by omega)]
    decide
  have h4 : stepRest (t - 6) (t - 7) (2, 2, 2) false = (2, 3, 3) := by
    simp only [stepRest]
    rw [if_pos (show t - 6 - (t - 7) = 1 by omega)]
    decide
  have hrun : streakOfDates t [t, t - 1, t - 5, t - 6, t - 7] = (2, 3) := by
    simp only [streakOfDates]
    rw [if_pos (Or.inl trivial)]
    simp only [loopAux]
    rw [h1, h2, h3, h4]
  refine ⟨rfl, ?_, ?_, ?_⟩
  · simp only [get_streak]
    rw [if_neg (List.cons_ne_nil _ _), List.Nodup.dedup (by simp),
      List.Sorted.insertionSort_eq (by simp : List.Sorted (· ≥ ·) [t])]
    simp only [streakOfDates]
    rw [if_pos (Or.inl trivial)]
    rfl
  · simp only [get_streak]
    rw [if_neg (List.cons_ne_nil _ _), List.Nodup.dedup hnd,
      List.Sorted.insertionSort_eq hsorted, hrun]
  · simp only [get_streak]
    have m1 : (t : ℤ) ∉ [t - 1, t - 5, t - 6, t - 7, t - 7] := by
      simp only [List.mem_cons, List.not_mem_nil, or_false]
      omega
    have m2 : (t - 1 : ℤ) ∉ [t - 5, t - 6, t - 7, t - 7] := by
      simp only [List.mem_cons, List.not_mem_nil, or_false]
      omega
    have m3 : (t - 5 : ℤ) ∉ [t - 6, t - 7, t - 7] := by
      simp only [List.mem_cons, List.not_mem_nil, or_false]
      omega
    have m4 : (t - 6 : ℤ) ∉ [t - 7, t - 7] := by
      simp only [List.mem_cons, List.not_mem_nil, or_false]
      omega
    have hd : ([t, t, t - 1, t - 5, t - 6, t - 7, t - 7] : List Int).dedup
        = [t, t - 1, t - 5, t - 6, t - 7] := by
      rw [List.dedup_cons_of_mem (List.mem_cons_self _ _),
        List.dedup_cons_of_not_mem m1, List.dedup_cons_of_not_mem m2,
        List.dedup_cons_of_not_mem m3, List.dedup_cons_of_not_mem m4,
        List.dedup_cons_of_mem (List.mem_cons_self _ _),
        List.dedup_cons_of_not_mem (List.not_mem_nil _), List.dedup_nil]
    rw [if_neg (List.cons_ne_nil _ _), hd,
      List.Sorted.insertionSort_eq hsorted, hrun]

/-- Claim C10: for every session history and every value of `today`, the
returned `current_streak` is at most `2` and never exceeds the returned
`longest_streak`: the loop can only set `current_streak` at indices `0`
and `1`. -/
theorem get_streak_current_bounds (sessionDates : List Int) (today : Int) :
    (get_streak sessionDates today).1 ≤ 2 ∧
    (get_streak sessionDates today).1 ≤ (get_streak sessionDates today).2 := by
  by_cases h : sessionDates = []
  · subst h
    exact ⟨(by decide : (0 : ℕ) ≤ 2), (by decide : (0 : ℕ) ≤ 0)⟩
  · simp only [get_streak, if_neg h]
    cases hdates : sessionDates.dedup.insertionSort (· ≥ ·) with
    | nil => exact ⟨(by decide : (0 : ℕ) ≤ 2), (by decide : (0 : ℕ) ≤ 0)⟩
    | cons d ds =>
      simp only [streakOfDates]
      by_cases h0 : d = today ∨ d = today - 1
      · rw [if_pos h0]
        cases ds with
        | nil => exact ⟨(by decide : (1 : ℕ) ≤ 2), (by decide : (1 : ℕ) ≤ 1)⟩
        | cons e es =>
          simp only [loopAux]
          exact loopAux_bounds e es _
            (stepRest_first_bounds d e _ (Or.inl rfl)).1
            (stepRest_first_bounds d e _ (Or.inl rfl)).2
      · rw [if_neg h0]
        cases ds with
        | nil => exact ⟨(by decide : (0 : ℕ) ≤ 2), (by decide : (0 : ℕ) ≤ 0)⟩
        | cons e es =>
          simp only [loopAux]
          exact loopAux_bounds e es _
            (stepRest_first_bounds d e _ (Or.inr rfl)).1
            (stepRest_first_bounds d e _ (Or.inr rfl)).2

/-! ## Analytics claims -/

/-- Claim C5: for every evaluation instant `now` and positive `days`, the
analytics window is `[now - days*24h, now]` with both ends inclusive: a
record with timestamp equal to `start` or to `end` is kept by the filter,
and records strictly outside the window are dropped. -/
theorem analytics_window_inclusive (sessions : List StudySession) (now days : Int)
    (hdays : 0 < days) (s : StudySession) (hs : s ∈ sessions) :
    (s ∈ windowFilter sessions now days ↔
        now - days * 86400 ≤ s.timestamp ∧ s.timestamp ≤ now) ∧
    (s.timestamp = now - days * 86400 → s ∈ windowFilter sessions now days) ∧
    (s.timestamp = now → s ∈ windowFilter sessions now days) ∧
    (s.timestamp < now - days * 86400 → s ∉ windowFilter sessions now days) ∧
    (now < s.timestamp → s ∉ windowFilter sessions now days) := by
  have hiff : s ∈ windowFilter sessions now days ↔
      now - days * 86400 ≤ s.timestamp ∧ s.timestamp ≤ now := by
    simp [windowFilter, List.mem_filter, hs]
  refine ⟨hiff, ?_, ?_, ?_, ?_⟩
  · intro h
    exact hiff.mpr (by omega)
  · intro h
    exact hiff.mpr (by omega)
  · intro h hmem
    have := hiff.mp hmem
    omega
  · intro h hmem
    have := hiff.mp hmem
    omega

/-- Witness for C5 at `now = 0`, `days = 7`: a record exactly at
`start = -604800` is included, and a record at `1 > now` is excluded. -/
theorem analytics_window_inclusive_witness :
    (⟨-604800, 1, none, 0⟩ : StudySession) ∈ windowFilter [⟨-604800, 1, none, 0⟩] 0 7 ∧
    (⟨1, 1, none, 0⟩ : StudySession) ∉ windowFilter [⟨1, 1, none, 0⟩] 0 7 :=
  ⟨(analytics_window_inclusive [⟨-604800, 1, none, 0⟩] 0 7 (by decide) _
      (List.mem_singleton_self _)).2.1 (by decide),
   (analytics_window_inclusive [⟨1, 1, none, 0⟩] 0 7 (by decide) _
      (List.mem_singleton_self _)).2.2.2.2 (by decide)⟩

/-- Claim C4 counterexample: for the non-positive windows `days = 0` and
`days = -1` the code does not reject; it returns a normal computed summary
(`days = 0` even counts a session at the instant `now`). -/
theorem get_analytics_nonpositive_days_normal_result :
    get_analytics [⟨0, 2, none, 0⟩] 0 0 = ⟨2, 1, 0, 2⟩ ∧
    get_analytics [⟨0, 2, none, 0⟩] 0 (-1) = ⟨0, 0, 0, 0⟩ := by
  constructor <;>
    norm_num [get_analytics, windowFilter, analyticsAvgFocus, pyRound, pyRoundInt,
      List.filter]

/-- Claim C4 (amended): for a negative `days` the computation silently
proceeds with the window `[now - days*24h, now]`, which is empty, and
returns the all-zero summary; no error is raised for any `days`. -/
theorem get_analytics_negative_days_empty (sessions : List StudySession)
    (now days : Int) (h : days < 0) :
    windowFilter sessions now days = [] ∧
    get_analytics sessions now days = ⟨0, 0, 0, 0⟩ := by
  have hnil : windowFilter sessions now days = [] := by
    rw [windowFilter, List.filter_eq_nil_iff]
    intro s hs
    simp only [Bool.and_eq_true, decide_eq_true_eq, not_and]
    intro h1 h2
    omega
  refine ⟨hnil, ?_⟩
  simp only [get_analytics, hnil]
  norm_num [analyticsAvgFocus, pyRound, pyRoundInt]

/-- Witness for the amended C4 at `days = -1`. -/
theorem get_analytics_negative_days_empty_witness :
    windowFilter [(⟨0, 2, none, 0⟩ : StudySession)] 0 (-1) = [] ∧
    get_analytics [(⟨0, 2, none, 0⟩ : StudySession)] 0 (-1) = ⟨0, 0, 0, 0⟩ :=
  get_analytics_negative_days_empty [⟨0, 2, none, 0⟩] 0 (-1) (by decide)

/-- Claim C6 counterexample: on the group `[focus 8, absent, focus 6]` the
subject-stats computation of `subjects.py` returns `14/3`, not the `7`
required by the mean-over-present-only policy the claim states for every
group. -/
theorem subject_stats_avg_focus_counterexample :
    get_subject_stats_avg_focus
        [⟨0, 1, some 8, 0⟩, ⟨0, 1, none, 0⟩, ⟨0, 1, some 6, 0⟩] = 14 / 3 ∧
    ((14 : Rat) / 3) ≠ 7 := by
  constructor
  · norm_num [get_subject_stats_avg_focus, List.cons_ne_nil]
  · norm_num

/-- Claim C6 (amended): the per-user analytics (`sessions.py`) averages the
present focus levels only, exactly as the spec's mean (`7` on the example
group); the subject stats (`subjects.py`) instead count an absent focus as
`0` in the numerator and keep the record in the denominator (`14/3` on the
same group). -/
theorem avg_focus_two_policies :
    (∀ sessions : List StudySession,
        analyticsAvgFocus sessions = meanPresentFocus sessions) ∧
    analyticsAvgFocus [⟨0, 1, some 8, 0⟩, ⟨0, 1, none, 0⟩, ⟨0, 1, some 6, 0⟩] = 7 ∧
    get_subject_stats_avg_focus
        [⟨0, 1, some 8, 0⟩, ⟨0, 1, none, 0⟩, ⟨0, 1, some 6, 0⟩] = 14 / 3 := by
  refine ⟨?_, ?_, ?_⟩
  · intro sessions
    by_cases h : sessions = []
    · subst h
      simp [analyticsAvgFocus, meanPresentFocus]
    · simp [analyticsAvgFocus, meanPresentFocus, h]
  · norm_num [analyticsAvgFocus, List.filterMap, List.cons_ne_nil]
  · norm_num [get_subject_stats_avg_focus, List.cons_ne_nil]

set_option maxRecDepth 4096 in
/-- Claim C7 counterexample: in the composed weekly-insights and analytics
responses the average focus level is rounded to 1 decimal place, not 2
(`77/10` where two-decimal rounding of the exact mean `23/3` is `767/100`),
and the most-studied time is passed through unrounded (`6469/2000`, which a
two-decimal rounding would change). -/
theorem weekly_rounding_counterexample :
    (get_weekly_insights
        [⟨0, 2469 / 2000, some 8, 5⟩, ⟨0, 1, some 8, 5⟩, ⟨0, 1, some 7, 5⟩]
        0).average_focus_level = 77 / 10 ∧
    pyRound (23 / 3) 2 = 767 / 100 ∧ ((77 : Rat) / 10) ≠ 767 / 100 ∧
    (get_weekly_insights
        [⟨0, 2469 / 2000, some 8, 5⟩, ⟨0, 1, some 8, 5⟩, ⟨0, 1, some 7, 5⟩]
        0).most_studied_time = 6469 / 2000 ∧
    pyRound ((6469 : Rat) / 2000) 2 ≠ 6469 / 2000 ∧
    (get_analytics
        [⟨0, 2469 / 2000, some 8, 5⟩, ⟨0, 1, some 8, 5⟩, ⟨0, 1, some 7, 5⟩]
        0 7).average_focus_level = 77 / 10 := by
  refine ⟨?_, ?_, ?_, ?_, ?_, ?_⟩
  · norm_num [get_weekly_insights, aiSubjectGroups, windowFilter, bumpAI,
      truthyFocus, weeklyExtremes, pyMaxByTime, pyMinByTime, pyRound, pyRoundInt,
      List.filter, List.cons_ne_nil, Int.fract]
  · norm_num [pyRound, pyRoundInt]
  · norm_num
  · norm_num [get_weekly_insights, aiSubjectGroups, windowFilter, bumpAI,
      truthyFocus, weeklyExtremes, pyMaxByTime, pyMinByTime, List.filter]
  · norm_num [pyRound, pyRoundInt, Int.fract]
  · have hw : windowFilter
        [⟨0, 2469 / 2000, some 8, 5⟩, ⟨0, 1, some 8, 5⟩, ⟨0, 1, some 7, 5⟩] 0 7
        = [⟨0, 2469 / 2000, some 8, 5⟩, ⟨0, 1, some 8, 5⟩, ⟨0, 1, some 7, 5⟩] := by
      norm_num [windowFilter, List.filter]
    have ha : analyticsAvgFocus
        [⟨0, 2469 / 2000, some 8, 5⟩, ⟨0, 1, some 8, 5⟩, ⟨0, 1, some 7, 5⟩]
        = 23 / 3 := by
      norm_num [analyticsAvgFocus, List.filterMap, List.cons_ne_nil]
    show pyRound (analyticsAvgFocus (windowFilter
        [⟨0, 2469 / 2000, some 8, 5⟩, ⟨0, 1, some 8, 5⟩, ⟨0, 1, some 7, 5⟩] 0 7)) 1
      = 77 / 10
    rw [hw, ha]
    norm_num [pyRound, pyRoundInt, Int.fract]

/-- Claim C7 (amended): rounding happens exactly once, at the response
boundary, on the exact unrounded aggregates: total times and average time
per session are rounded to 2 decimals, the average focus level to 1
decimal, and the extremum times are passed through without rounding. -/
theorem rounding_at_boundary (sessions : List StudySession) (now days : Int) :
    (get_analytics sessions now days).total_time
      = pyRound ((windowFilter sessions now days).map fun s => s.time_spent).sum 2 ∧
    (get_analytics sessions now days).average_focus_level
      = pyRound (analyticsAvgFocus (windowFilter sessions now days)) 1 ∧
    (get_analytics sessions now days).average_time_per_session
      = (if 0 < (windowFilter sessions now days).length then
          pyRound (((windowFilter sessions now days).map fun s => s.time_spent).sum
            / ((windowFilter sessions now days).length : Rat)) 2
        else 0) ∧
    (get_weekly_insights sessions now).total_study_time
      = pyRound ((aiSubjectGroups (windowFilter sessions now 7)).map fun g => g.2.1).sum 2 ∧
    (get_weekly_insights sessions now).most_studied_time
      = (weeklyExtremes ((aiSubjectGroups (windowFilter sessions now 7)).map
          fun g => (g.1, g.2.1))).1.2 ∧
    (get_weekly_insights sessions now).least_studied_time
      = (weeklyExtremes ((aiSubjectGroups (windowFilter sessions now 7)).map
          fun g => (g.1, g.2.1))).2.2 :=
  ⟨rfl, rfl, rfl, rfl, rfl, rfl⟩

/-- One `subject_data` dict update adds exactly the session's hours to the
total over all groups. -/
theorem bumpSubject_time_sum (acc : List (Nat × Rat × Nat)) (k : Nat) (t : Rat) :
    ((bumpSubject acc k t).map fun g => g.2.1).sum
      = ((acc.map fun g => g.2.1).sum) + t := by
  induction acc with
  | nil => simp [bumpSubject]
  | cons e rest ih =>
    simp only [bumpSubject]
    split
    · simp only [List.map_cons, List.sum_cons]
      ring
    · simp only [List.map_cons, List.sum_cons, ih]
      ring

/-- One `subject_data` dict update adds exactly one to the total session
count over all groups. -/
theorem bumpSubject_count_sum (acc : List (Nat × Rat × Nat)) (k : Nat) (t : Rat) :
    ((bumpSubject acc k t).map fun g => g.2.2).sum
      = ((acc.map fun g => g.2.2).sum) + 1 := by
  induction acc with
  | nil => simp [bumpSubject]
  | cons e rest ih =>
    simp only [bumpSubject]
    split
    · simp only [List.map_cons, List.sum_cons]
      omega
    · simp only [List.map_cons, List.sum_cons, ih]
      omega

/-- Folding sessions into the `subject_data` dict adds their summed hours
to the accumulated per-group totals. -/
theorem subject_breakdown_time_go (l : List StudySession) :
    ∀ acc : List (Nat × Rat × Nat),
      (((l.foldl (fun a s => bumpSubject a s.subject_id s.time_spent) acc)).map
          fun g => g.2.1).sum
        = ((acc.map fun g => g.2.1).sum) + ((l.map fun s => s.time_spent).sum) := by
  induction l with
  | nil => intro acc; simp
  | cons s rest ih =>
    intro acc
    simp only [List.foldl_cons, List.map_cons, List.sum_cons]
    rw [ih, bumpSubject_time_sum]
    ring

/-- Folding sessions into the `subject_data` dict adds their number to the
accumulated per-group counts. -/
theorem subject_breakdown_count_go (l : List StudySession) :
    ∀ acc : List (Nat × Rat × Nat),
      (((l.foldl (fun a s => bumpSubject a s.subject_id s.time_spent) acc)).map
          fun g => g.2.2).sum
        = ((acc.map fun g => g.2.2).sum) + l.length := by
  induction l with
  | nil => intro acc; simp
  | cons s rest ih =>
    intro acc
    simp only [List.foldl_cons, List.length_cons]
    rw [ih, bumpSubject_count_sum]
    omega

/-- Claim C8: grouping by subject is a partition: for every record set the
per-group time totals sum to the total time over the ungrouped set, and the
per-group session counts sum to the total session count. -/
theorem subject_breakdown_partition (records : List StudySession) :
    ((subject_breakdown records).map fun g => g.2.1).sum
      = (records.map fun s => s.time_spent).sum ∧
    ((subject_breakdown records).map fun g => g.2.2).sum = records.length := by
  constructor
  · have := subject_breakdown_time_go records []
    simpa [subject_breakdown] using this
  · have := subject_breakdown_count_go records []
    simpa [subject_breakdown] using this

/-- Python `max(..., key=total_time)` returns an element of the list whose
key is greatest. -/
theorem pyMaxByTime_spec (xs : List (Nat × Rat)) :
    ∀ x : Nat × Rat,
      pyMaxByTime x xs ∈ x :: xs ∧
      ∀ y ∈ x :: xs, y.2 ≤ (pyMaxByTime x xs).2 := by
  induction xs with
  | nil =>
    intro x
    refine ⟨List.mem_singleton_self _, ?_⟩
    intro y hy
    rw [List.mem_singleton.mp hy]
    exact le_refl _
  | cons g gs ih =>
    intro x
    have hstep : pyMaxByTime x (g :: gs) = pyMaxByTime (if x.2 < g.2 then g else x) gs := rfl
    obtain ⟨ihmem, ihle⟩ := ih (if x.2 < g.2 then g else x)
    have hxle : x.2 ≤ (if x.2 < g.2 then g else x).2 := by
      split
      · exact le_of_lt (by assumption)
      · exact le_refl _
    have hgle : g.2 ≤ (if x.2 < g.2 then g else x).2 := by
      split
      · exact le_refl _
      · exact le_of_not_lt (by assumption)
    constructor
    · rw [hstep]
      rcases List.mem_cons.mp ihmem with h | h
      · rw [h]
        split
        · exact List.mem_cons_of_mem _ (List.mem_cons_self _ _)
        · exact List.mem_cons_self _ _
      · exact List.mem_cons_of_mem _ (List.mem_cons_of_mem _ h)
    · intro y hy
      rw [hstep]
      have hhead := ihle _ (List.mem_cons_self _ _)
      rcases List.mem_cons.mp hy with h | h
      · rw [h]
        exact le_trans hxle hhead
      · rcases List.mem_cons.mp h with h2 | h2
        · rw [h2]
          exact le_trans hgle hhead
        · exact ihle y (List.mem_cons_of_mem _ h2)

/-- Python `min(..., key=total_time)` returns an element of the list whose
key is least. -/
theorem pyMinByTime_spec (xs : List (Nat × Rat)) :
    ∀ x : Nat × Rat,
      pyMinByTime x xs ∈ x :: xs ∧
      ∀ y ∈ x :: xs, (pyMinByTime x xs).2 ≤ y.2 := by
  induction xs with
  | nil =>
    intro x
    refine ⟨List.mem_singleton_self _, ?_⟩
    intro y hy
    rw [List.mem_singleton.mp hy]
    exact le_refl _
  | cons g gs ih =>
    intro x
    have hstep : pyMinByTime x (g :: gs) = pyMinByTime (if g.2 < x.2 then g else x) gs := rfl
    obtain ⟨ihmem, ihle⟩ := ih (if g.2 < x.2 then g else x)
    have hxle : (if g.2 < x.2 then g else x).2 ≤ x.2 := by
      split
      · exact le_of_lt (by assumption)
      · exact le_refl _
    have hgle : (if g.2 < x.2 then g else x).2 ≤ g.2 := by
      split
      · exact le_refl _
      · exact le_of_not_lt (by assumption)
    constructor
    · rw [hstep]
      rcases List.mem_cons.mp ihmem with h | h
      · rw [h]
        split
        · exact List.mem_cons_of_mem _ (List.mem_cons_self _ _)
        · exact List.mem_cons_self _ _
      · exact List.mem_cons_of_mem _ (List.mem_cons_of_mem _ h)
    · intro y hy
      rw [hstep]
      have hhead := ihle _ (List.mem_cons_self _ _)
      rcases List.mem_cons.mp hy with h | h
      · rw [h]
        exact le_trans hhead hxle
      · rcases List.mem_cons.mp h with h2 | h2
        · rw [h2]
          exact le_trans hhead hgle
        · exact ihle y (List.mem_cons_of_mem _ h2)

/-- Claim C9: the weekly-insights extremum slots come straight from
`weeklyExtremes`, which never errors: on an empty group list both slots are
the placeholder (name absent, time `0`), and on a non-empty list they hold
a group of maximal, respectively minimal, total time. -/
theorem weekly_extremes_placeholder_and_extremal :
    weeklyExtremes [] = ((none, 0), (none, 0)) ∧
    (∀ (sessions : List StudySession) (now : Int),
        ((get_weekly_insights sessions now).most_studied_name,
            (get_weekly_insights sessions now).most_studied_time)
          = (weeklyExtremes ((aiSubjectGroups (windowFilter sessions now 7)).map
              fun g => (g.1, g.2.1))).1 ∧
        ((get_weekly_insights sessions now).least_studied_name,
            (get_weekly_insights sessions now).least_studied_time)
          = (weeklyExtremes ((aiSubjectGroups (windowFilter sessions now 7)).map
              fun g => (g.1, g.2.1))).2) ∧
    (∀ (x : Nat × Rat) (xs : List (Nat × Rat)),
        ∃ g, g ∈ x :: xs ∧ (weeklyExtremes (x :: xs)).1 = (some g.1, g.2) ∧
          ∀ y ∈ x :: xs, y.2 ≤ g.2) ∧
    (∀ (x : Nat × Rat) (xs : List (Nat × Rat)),
        ∃ g, g ∈ x :: xs ∧ (weeklyExtremes (x :: xs)).2 = (some g.1, g.2) ∧
          ∀ y ∈ x :: xs, g.2 ≤ y.2) := by
  refine ⟨rfl, fun sessions now => ⟨rfl, rfl⟩, ?_, ?_⟩
  · intro x xs
    exact ⟨pyMaxByTime x xs, (pyMaxByTime_spec xs x).1, rfl, (pyMaxByTime_spec xs x).2⟩
  · intro x xs
    exact ⟨pyMinByTime x xs, (pyMinByTime_spec xs x).1, rfl, (pyMinByTime_spec xs x).2⟩
